import Mathlib

/-!
Verification of the conversation-analysis pipeline of the `linkedin-messages`
repository, as a shallow embedding in Lean.

Modelling conventions:
* A pandas `DataFrame` of messages is a `List` of records; a column that can
  hold `NaN`/`NaT` is an `Option` field.
* Timestamps are rationals (seconds since some epoch); `pd.to_datetime` with
  `errors="coerce"` is modelled by the input already carrying the parse
  result as `Option ℚ` (`none` = `NaT`).
* Python/numpy floats are modelled by `ℚ`; all arithmetic in the pipeline is
  exact on the values it actually computes.
* `DataFrame.sort_values` on several columns is documented by pandas to use a
  stable lexicographic sort (`np.lexsort`; the `kind` option only applies to
  single-column sorts).  A stable sort by a total preorder is unique, so it
  is embedded as `List.insertionSort`, which is stable and kernel-computable.
-/

set_option maxHeartbeats 1000000

/- Mathlib marks the `Rat` field operations irreducible for elaboration
performance; re-allow unfolding so that `decide` can evaluate the embedded
pipeline on concrete inputs.  This only affects elaborator transparency, not
the kernel or the semantics of any definition. -/
set_option allowUnsafeReducibility true
attribute [local semireducible] Rat.mul Rat.add Rat.sub Rat.div Rat.inv Rat.neg

namespace LinkedInMsgs

/-! ### Loader (src/parser.py, load_messages_csv) -/

/-- One CSV row after header normalisation and timestamp parsing.
`timestamp = none` models an unparseable date (`pd.to_datetime` with
`errors="coerce"` yields `NaT`); `none` in the other fields models a missing
(`NaN`) value. -/
structure RawRow where
  thread_id : Option String
  sender : Option String
  recipient : Option String
  timestamp : Option ℚ
  content : Option String
deriving DecidableEq

/-- The `dropna(subset=['thread_id', 'sender', 'content'])` predicate of
`load_messages_csv`: exactly these three fields must be present. -/
def essentialsPresent (r : RawRow) : Bool :=
  r.thread_id.isSome && r.sender.isSome && r.content.isSome

/-- Ordering used by pandas on a possibly-`NaT` timestamp column: missing
values sort last (`na_position='last'`). -/
def leOptQ : Option ℚ → Option ℚ → Prop
  | some x, some y => x ≤ y
  | some _, none => True
  | none, some _ => False
  | none, none => True

/-- Lexicographic comparison of strings by code points, as Python compares
`str` values (stated on the underlying character lists so that it is
kernel-computable). -/
def strLt (a b : String) : Prop := a.data < b.data

instance : DecidableRel strLt := fun a b => by unfold strLt; infer_instance

theorem strLt_trichotomy (a b : String) : strLt a b ∨ a = b ∨ strLt b a := by
  rcases lt_trichotomy a.data b.data with h | h | h
  · exact Or.inl h
  · refine Or.inr (Or.inl ?_)
    cases a
    cases b
    exact congrArg String.mk h
  · exact Or.inr (Or.inr h)

theorem strLt_trans {a b c : String} (h1 : strLt a b) (h2 : strLt b c) : strLt a c :=
  lt_trans h1 h2

theorem strLt_irrefl (a : String) : ¬strLt a a := lt_irrefl a.data

/-- Ordering on a possibly-missing string column, missing values last. -/
def leOptStr : Option String → Option String → Prop
  | some x, some y => x.data ≤ y.data
  | some _, none => True
  | none, some _ => False
  | none, none => True

instance : DecidableRel leOptQ := fun a b => by
  cases a <;> cases b <;> simp only [leOptQ] <;> infer_instance

instance : DecidableRel leOptStr := fun a b => by
  cases a <;> cases b <;> simp only [leOptStr] <;> infer_instance

/-- The sort key relation of `df.sort_values(['thread_id', 'timestamp'])` in
`load_messages_csv`: lexicographic on (thread_id, timestamp). -/
def leRaw (a b : RawRow) : Prop :=
  if a.thread_id = b.thread_id then leOptQ a.timestamp b.timestamp
  else leOptStr a.thread_id b.thread_id

instance : DecidableRel leRaw := fun a b => by
  unfold leRaw; infer_instance

/-- `load_messages_csv` after the column renames: coerce timestamps (already
reflected in the input), drop rows missing `thread_id`, `sender` or
`content`, and sort by `['thread_id', 'timestamp']` (stable). -/
def loadMessagesCsv (raws : List RawRow) : List RawRow :=
  List.insertionSort leRaw (raws.filter essentialsPresent)

/-! ### Analysis-stage message records

After loading, direction classification (src/direction.py) and the message
scorer (src/analyzer.py) the frame has the columns below.  Claims about the
analysis stages are stated over rows whose timestamp parsed; `NaT` handling
at load time is covered by the loader model above. -/

/-- A message row as seen by `detect_replies_and_response_times`,
`analyze_outbound_performance` and `classify_sales_messages`: base columns
plus the derived columns those functions read.  `content = none` models a
`NaN` content cell; `timestamp` is in seconds. -/
structure Msg where
  thread_id : String
  sender : String
  timestamp : ℚ
  content : Option String
  direction : String
  contact_person : String
  sentiment_polarity : ℚ
  message_length : ℕ
  word_count : ℕ
  question_count : ℕ
  has_greeting : Bool
  has_url : Bool
  is_outbound_initiated : Bool
  is_first_message : Bool
deriving DecidableEq

/-- Sort key relation of `df.sort_values(['thread_id', 'timestamp'])` in
`detect_replies_and_response_times` (analyzer.py line 99): lexicographic on
(thread_id, timestamp). -/
def leMsg (a b : Msg) : Prop :=
  strLt a.thread_id b.thread_id ∨ (a.thread_id = b.thread_id ∧ a.timestamp ≤ b.timestamp)

instance : DecidableRel leMsg := fun a b => by
  unfold leMsg; infer_instance

instance : IsTotal Msg leMsg where
  total a b := by
    unfold leMsg
    rcases strLt_trichotomy a.thread_id b.thread_id with h | h | h
    · exact Or.inl (Or.inl h)
    · rcases le_total a.timestamp b.timestamp with h' | h'
      · exact Or.inl (Or.inr ⟨h, h'⟩)
      · exact Or.inr (Or.inr ⟨h.symm, h'⟩)
    · exact Or.inr (Or.inl h)

instance : IsTrans Msg leMsg where
  trans a b c hab hbc := by
    unfold leMsg at *
    rcases hab with h1 | ⟨e1, t1⟩
    · rcases hbc with h2 | ⟨e2, _⟩
      · exact Or.inl (strLt_trans h1 h2)
      · exact Or.inl (e2 ▸ h1)
    · rcases hbc with h2 | ⟨e2, t2⟩
      · exact Or.inl (e1 ▸ h2)
      · exact Or.inr ⟨e1.trans e2, t1.trans t2⟩

/-- The stable sort at analyzer.py line 99. -/
def sortRows (rows : List Msg) : List Msg :=
  List.insertionSort leMsg rows

/-! ### Reply detection (src/analyzer.py, detect_replies_and_response_times) -/

/-- A message row with the columns added by
`detect_replies_and_response_times`.  `response_time_hours` is initialised to
`NaT` (`none`) and only assigned on detected replies. -/
structure RMsg where
  msg : Msg
  is_reply : Bool
  is_first : Bool
  is_out_init : Bool
  response_time_hours : Option ℚ
  previous_sender : Option String
deriving DecidableEq

/-- The row emitted for `r` when the previous row of the walk is `ctx`:
either `r` opens a new thread (previous row absent or from another thread,
so `r` is the thread's earliest row: `is_first_message`, no reply marks), or
`r` continues the thread of the previous row `p`, in which case it is a
reply iff its sender differs from `p`'s, and then `response_time_hours` is
the elapsed time in fractional hours.  `flag` is the running thread's
`is_outbound_initiated` value. -/
def replyRecord (user : String) (ctx : Option (Msg × Bool)) (r : Msg) : RMsg :=
  match ctx with
  | some (p, flag) =>
    if p.thread_id = r.thread_id then
      { msg := r
        is_reply := p.sender ≠ r.sender
        is_first := false
        is_out_init := flag
        response_time_hours :=
          if p.sender ≠ r.sender then some ((r.timestamp - p.timestamp) / 3600) else none
        previous_sender := if p.sender ≠ r.sender then some p.sender else none }
    else
      { msg := r, is_reply := false, is_first := true, is_out_init := r.sender = user
        response_time_hours := none, previous_sender := none }
  | none =>
    { msg := r, is_reply := false, is_first := true, is_out_init := r.sender = user
      response_time_hours := none, previous_sender := none }

/-- The `is_outbound_initiated` flag carried into the rest of the walk once
`r` has been processed: unchanged inside a thread, recomputed from the
thread-opening sender otherwise. -/
def replyFlag (user : String) (ctx : Option (Msg × Bool)) (r : Msg) : Bool :=
  match ctx with
  | some (p, flag) => if p.thread_id = r.thread_id then flag else r.sender == user
  | none => r.sender == user

/-- One pass over the sorted frame.  The Python code iterates each thread's
rows in sorted order; since the frame is sorted by thread id first, the rows
of a thread are contiguous and the per-thread loops amount to a single walk
carrying the previous row of the current thread and the thread's
`is_outbound_initiated` flag (derived from its first sender). -/
def annotateReplies (user : String) : Option (Msg × Bool) → List Msg → List RMsg
  | _, [] => []
  | ctx, r :: rest =>
    replyRecord user ctx r :: annotateReplies user (some (r, replyFlag user ctx r)) rest

/-- `detect_replies_and_response_times`.  Line 111 reads
`df[df['direction'] == 'outbound']['sender'].iloc[0]`, which raises
`IndexError` when no row has direction `'outbound'`; the raise is modelled by
`none`. -/
def detectRepliesAndResponseTimes (rows : List Msg) : Option (List RMsg) :=
  match ((sortRows rows).filter (fun m => m.direction == "outbound")).head? with
  | none => none
  | some m => some (annotateReplies m.sender none (sortRows rows))

/-! ### Zero-denominator computations (src/direction.py, src/sales_analyzer.py) -/

/-- direction.py line 90: per-contact
`response_rate = inbound_messages / outbound_messages if outbound_messages > 0 else 0` —
a rate with an explicit zero-denominator fallback. -/
def conversationResponseRate (inboundCount outboundCount : ℕ) : ℚ :=
  if 0 < outboundCount then (inboundCount : ℚ) / outboundCount else 0

/-- Python float division.  On a zero denominator no number is produced: a
built-in float raises `ZeroDivisionError` and a numpy scalar yields a
non-finite `inf` — in either case the computation does not return a defined
fallback value, modelled by `none`. -/
def pyDiv (a b : ℚ) : Option ℚ := if b = 0 then none else some (a / b)

/-- The numeric core of `get_sales_insights` (sales_analyzer.py lines
339-362): `sales_vs_non_sales_lift` is guarded by `if non_sales_rate > 0`
(line 343), but the first recommendation executes
`(sales_rate/non_sales_rate - 1)*100` (line 360) whenever
`sales_rate > non_sales_rate`, with no guard on the denominator.  Returns
the pair (lift, recommendation percentage if that branch ran), or `none`
when the unguarded division hit a zero denominator. -/
def getSalesInsightsNums (salesRate nonSalesRate : ℚ) : Option (ℚ × Option ℚ) :=
  let lift := if 0 < nonSalesRate then (salesRate - nonSalesRate) / nonSalesRate else 0
  if nonSalesRate < salesRate then
    (pyDiv salesRate nonSalesRate).map fun r => (lift, some ((r - 1) * 100))
  else
    some (lift, none)

/-! ### C3 — rows with unparseable timestamps at load time -/

/-- A row whose essential fields are present but whose timestamp failed to
parse (`NaT`). -/
def natRow : RawRow :=
  { thread_id := some "t1", sender := some "alice", recipient := some "bob"
    timestamp := none, content := some "hello" }

/-- C3 counterexample: the claim says a row with an unparseable timestamp
never appears in the frame returned by `load_messages_csv`; here such a row
(essential fields present, `NaT` timestamp) survives loading, because the
`dropna` subset is `['thread_id', 'sender', 'content']` and does not include
`timestamp`. -/
theorem natRow_survives_load :
    natRow.timestamp = none ∧ loadMessagesCsv [natRow] = [natRow] := by
  constructor
  · rfl
  · decide

/-- C3 (amended): loading drops exactly the rows missing `thread_id`,
`sender` or `content`; timestamp parseability plays no role, so rows with
unparseable timestamps are retained (with a `NaT` timestamp), merely
reordered by the sort. -/
theorem loadMessagesCsv_perm_essentials (raws : List RawRow) :
    List.Perm (loadMessagesCsv raws) (raws.filter essentialsPresent) :=
  List.perm_insertionSort leRaw (raws.filter essentialsPresent)

/-! ### C5 — zero-denominator behaviour of the rate computations -/

/-- C5: the claim says every rate/mean computation returns fallback 0 on a
zero denominator and completes without error.  The per-contact response rate
(direction.py line 90) does fall back to 0, but `get_sales_insights`
evaluates `(sales_rate/non_sales_rate - 1)*100` with `non_sales_rate = 0`
whenever `sales_rate > non_sales_rate = 0`, producing no defined fallback
value (a `ZeroDivisionError` / non-finite `inf`). -/
theorem getSalesInsights_zero_denominator :
    getSalesInsightsNums 1 0 = none ∧ conversationResponseRate 3 0 = 0 := by
  constructor
  · simp [getSalesInsightsNums, pyDiv]
  · rfl

/-! ### C10 — reply detection with no outbound row -/

/-- C10: `detect_replies_and_response_times` unconditionally evaluates
`df[df['direction'] == 'outbound']['sender'].iloc[0]` (analyzer.py line
111); on a non-empty frame with no outbound-direction row this raises
`IndexError` (modelled by `none`) instead of returning a frame. -/
theorem detectReplies_no_outbound_raises (rows : List Msg)
    (_hne : rows ≠ []) (h : ∀ m ∈ rows, m.direction ≠ "outbound") :
    detectRepliesAndResponseTimes rows = none := by
  unfold detectRepliesAndResponseTimes
  have hfil : (sortRows rows).filter (fun m => m.direction == "outbound") = [] := by
    rw [List.filter_eq_nil_iff]
    intro a ha
    have hmem : a ∈ rows := by
      have := (List.mem_insertionSort leMsg).mp ha
      exact this
    simpa using h a hmem
  simp [hfil]

/-- A purely inbound message row. -/
def exInboundMsg : Msg :=
  { thread_id := "t", sender := "alice", timestamp := 0, content := some "hi"
    direction := "inbound", contact_person := "alice", sentiment_polarity := 0
    message_length := 2, word_count := 1, question_count := 0
    has_greeting := true, has_url := false
    is_outbound_initiated := false, is_first_message := true }

/-- Witness for C10 at a concrete one-row frame with no outbound message. -/
theorem detectReplies_no_outbound_raises_witness :
    detectRepliesAndResponseTimes [exInboundMsg] = none :=
  detectReplies_no_outbound_raises [exInboundMsg] (by decide) (by decide)

/-! ### C1 — response_time_hours after reply detection -/

theorem replyRecord_msg (user : String) (ctx : Option (Msg × Bool)) (r : Msg) :
    (replyRecord user ctx r).msg = r := by
  unfold replyRecord
  rcases ctx with _ | ⟨p, flag⟩
  · rfl
  · by_cases h : p.thread_id = r.thread_id <;> simp [h]

theorem replyRecord_rt_cont (user : String) (p : Msg) (flag : Bool) (r : Msg) :
    (replyRecord user (some (p, flag)) r).response_time_hours =
      (if p.thread_id = r.thread_id ∧ p.sender ≠ r.sender
       then some ((r.timestamp - p.timestamp) / 3600) else none) := by
  unfold replyRecord
  by_cases h1 : p.thread_id = r.thread_id
  · by_cases h2 : p.sender = r.sender <;> simp [h1, h2]
  · simp [h1]

theorem annotateReplies_length (user : String) (l : List Msg) :
    ∀ ctx, (annotateReplies user ctx l).length = l.length := by
  induction l with
  | nil => intro ctx; rfl
  | cons r rest ih => intro ctx; simp [annotateReplies, ih]

theorem annotateReplies_get_msg (user : String) (l : List Msg) :
    ∀ (ctx : Option (Msg × Bool)) (i : ℕ) (hi : i < l.length),
      ((annotateReplies user ctx l).get
          ⟨i, by rw [annotateReplies_length]; exact hi⟩).msg = l.get ⟨i, hi⟩ := by
  induction l with
  | nil => intro ctx i hi; simp at hi
  | cons r rest ih =>
    intro ctx i hi
    cases i with
    | zero => simpa [annotateReplies] using replyRecord_msg user ctx r
    | succ i' =>
      have hi' : i' < rest.length := Nat.lt_of_succ_lt_succ hi
      simpa [annotateReplies] using ih (some (r, replyFlag user ctx r)) i' hi'

theorem annotateReplies_rt_zero (user : String) (l : List Msg) (h0 : 0 < l.length) :
    ((annotateReplies user none l).get
        ⟨0, by rw [annotateReplies_length]; exact h0⟩).response_time_hours = none := by
  cases l with
  | nil => simp at h0
  | cons r rest => rfl

theorem annotateReplies_rt_succ (user : String) (l : List Msg) :
    ∀ (ctx : Option (Msg × Bool)) (i : ℕ) (hi : i + 1 < l.length),
      ((annotateReplies user ctx l).get
          ⟨i + 1, by rw [annotateReplies_length]; exact hi⟩).response_time_hours =
        (if (l.get ⟨i, Nat.lt_of_succ_lt hi⟩).thread_id = (l.get ⟨i + 1, hi⟩).thread_id ∧
            (l.get ⟨i, Nat.lt_of_succ_lt hi⟩).sender ≠ (l.get ⟨i + 1, hi⟩).sender
         then some (((l.get ⟨i + 1, hi⟩).timestamp -
                     (l.get ⟨i, Nat.lt_of_succ_lt hi⟩).timestamp) / 3600)
         else none) := by
  induction l with
  | nil => intro ctx i hi; simp at hi
  | cons r rest ih =>
    intro ctx i hi
    cases i with
    | zero =>
      cases rest with
      | nil => simp at hi
      | cons s rest' =>
        simpa [annotateReplies] using replyRecord_rt_cont user r (replyFlag user ctx r) s
    | succ i' =>
      have hi' : i' + 1 < rest.length := Nat.lt_of_succ_lt_succ hi
      simpa [annotateReplies] using ih (some (r, replyFlag user ctx r)) i' hi'

theorem sortRows_sorted (rows : List Msg) : List.Sorted leMsg (sortRows rows) :=
  List.sorted_insertionSort leMsg rows

/-- C1: after `detect_replies_and_response_times`, `response_time_hours` of
a row is defined exactly when the row's sender differs from the immediately
preceding row of the same thread in thread order — in particular never on a
thread's first row (a row whose predecessor in the sorted frame belongs to
another thread, or the very first row) — and whenever defined it equals the
elapsed time between the two rows in fractional hours and is ≥ 0. -/
theorem responseTime_defined_iff_sender_change (rows : List Msg) (out : List RMsg)
    (h : detectRepliesAndResponseTimes rows = some out) :
    (∀ (h0 : 0 < out.length), (out.get ⟨0, h0⟩).response_time_hours = none) ∧
    (∀ (i : ℕ) (hi : i + 1 < out.length),
      (out.get ⟨i + 1, hi⟩).response_time_hours =
        (if (out.get ⟨i, Nat.lt_of_succ_lt hi⟩).msg.thread_id =
              (out.get ⟨i + 1, hi⟩).msg.thread_id ∧
            (out.get ⟨i, Nat.lt_of_succ_lt hi⟩).msg.sender ≠
              (out.get ⟨i + 1, hi⟩).msg.sender
         then some (((out.get ⟨i + 1, hi⟩).msg.timestamp -
                     (out.get ⟨i, Nat.lt_of_succ_lt hi⟩).msg.timestamp) / 3600)
         else none)) ∧
    (∀ (i : ℕ) (hi : i < out.length) (t : ℚ),
      (out.get ⟨i, hi⟩).response_time_hours = some t → 0 ≤ t) := by
  unfold detectRepliesAndResponseTimes at h
  cases hh : ((sortRows rows).filter (fun m => m.direction == "outbound")).head? with
  | none => rw [hh] at h; cases h
  | some m =>
    rw [hh] at h
    have hout : out = annotateReplies m.sender none (sortRows rows) :=
      (Option.some.injEq _ _ ▸ h).symm
    subst hout
    have hlen : ∀ k, k < (annotateReplies m.sender none (sortRows rows)).length ↔
        k < (sortRows rows).length := by
      intro k; rw [annotateReplies_length]
    refine ⟨?_, ?_, ?_⟩
    · intro h0
      exact annotateReplies_rt_zero m.sender (sortRows rows) ((hlen 0).mp h0)
    · intro i hi
      have hi' : i + 1 < (sortRows rows).length := (hlen (i + 1)).mp hi
      have hmsg0 := annotateReplies_get_msg m.sender (sortRows rows) none i
        (Nat.lt_of_succ_lt hi')
      have hmsg1 := annotateReplies_get_msg m.sender (sortRows rows) none (i + 1) hi'
      rw [hmsg0, hmsg1]
      exact annotateReplies_rt_succ m.sender (sortRows rows) none i hi'
    · intro i hi t ht
      cases i with
      | zero =>
        rw [annotateReplies_rt_zero m.sender (sortRows rows) ((hlen 0).mp hi)] at ht
        cases ht
      | succ i' =>
        have hi' : i' + 1 < (sortRows rows).length := (hlen (i' + 1)).mp hi
        rw [annotateReplies_rt_succ m.sender (sortRows rows) none i' hi'] at ht
        by_cases hc : ((sortRows rows).get ⟨i', Nat.lt_of_succ_lt hi'⟩).thread_id =
            ((sortRows rows).get ⟨i' + 1, hi'⟩).thread_id ∧
            ((sortRows rows).get ⟨i', Nat.lt_of_succ_lt hi'⟩).sender ≠
            ((sortRows rows).get ⟨i' + 1, hi'⟩).sender
        · rw [if_pos hc] at ht
          obtain ⟨rfl⟩ : t = (((sortRows rows).get ⟨i' + 1, hi'⟩).timestamp -
              ((sortRows rows).get ⟨i', Nat.lt_of_succ_lt hi'⟩).timestamp) / 3600 := by
            exact (Option.some.injEq _ _ ▸ ht).symm
          have hrel := (sortRows_sorted rows).rel_get_of_lt
            (a := ⟨i', Nat.lt_of_succ_lt hi'⟩) (b := ⟨i' + 1, hi'⟩)
            (by exact Nat.lt_succ_self i')
          rcases hrel with hlt | ⟨_, hle⟩
          · rw [hc.1] at hlt
            exact absurd hlt (strLt_irrefl _)
          · have hnum : 0 ≤ ((sortRows rows).get ⟨i' + 1, hi'⟩).timestamp -
                ((sortRows rows).get ⟨i', Nat.lt_of_succ_lt hi'⟩).timestamp :=
              sub_nonneg.mpr hle
            positivity
        · rw [if_neg hc] at ht
          cases ht

/-- A thread-opening outbound message, for concrete runs. -/
def exM1 : Msg :=
  { thread_id := "t1", sender := "me", timestamp := 0, content := some "Hi Alice"
    direction := "outbound", contact_person := "alice", sentiment_polarity := 0
    message_length := 8, word_count := 2, question_count := 0
    has_greeting := true, has_url := false
    is_outbound_initiated := false, is_first_message := false }

/-- The reply two hours (7200 seconds) later. -/
def exM2 : Msg :=
  { thread_id := "t1", sender := "alice", timestamp := 7200, content := some "Hi back!"
    direction := "inbound", contact_person := "alice", sentiment_polarity := 0
    message_length := 8, word_count := 2, question_count := 0
    has_greeting := true, has_url := false
    is_outbound_initiated := false, is_first_message := false }

/-- The frame produced by reply detection on `[exM1, exM2]`. -/
def exReplyOut : List RMsg := (detectRepliesAndResponseTimes [exM1, exM2]).getD []

/-- Witness for C1 on a concrete two-message thread: the opening message has
no response time, the reply's is 2.0 hours. -/
theorem responseTime_defined_iff_sender_change_witness :
    detectRepliesAndResponseTimes [exM1, exM2] = some exReplyOut ∧
    (exReplyOut.get ⟨0, by decide⟩).response_time_hours = none ∧
    (exReplyOut.get ⟨1, by decide⟩).response_time_hours = some 2 := by
  have h : detectRepliesAndResponseTimes [exM1, exM2] = some exReplyOut := by decide
  obtain ⟨h0, hadj, _⟩ := responseTime_defined_iff_sender_change [exM1, exM2] exReplyOut h
  refine ⟨h, h0 (by decide), ?_⟩
  rw [hadj 0 (by decide)]
  decide

/-! ### C4 — stability of the thread/timestamp sort -/

/-- The sort key of analyzer.py line 99 extended with the original row
position as the final tie-break: `a` may come before `b` when its key is no
greater, and on key ties only in original order. -/
def leMsgIdx (a b : ℕ × Msg) : Prop :=
  leMsg a.2 b.2 ∧ (leMsg b.2 a.2 → a.1 ≤ b.1)

instance : DecidableRel leMsgIdx := fun a b => by unfold leMsgIdx; infer_instance

instance : IsTotal (ℕ × Msg) leMsgIdx where
  total a b := by
    by_cases hab : leMsg a.2 b.2 <;> by_cases hba : leMsg b.2 a.2
    · rcases Nat.le_total a.1 b.1 with h | h
      · exact Or.inl ⟨hab, fun _ => h⟩
      · exact Or.inr ⟨hba, fun _ => h⟩
    · exact Or.inl ⟨hab, fun hc => absurd hc hba⟩
    · exact Or.inr ⟨hba, fun hc => absurd hc hab⟩
    · rcases total_of leMsg a.2 b.2 with h | h
      · exact absurd h hab
      · exact absurd h hba

instance : IsTrans (ℕ × Msg) leMsgIdx where
  trans a b c hab hbc := by
    obtain ⟨h1, h2⟩ := hab
    obtain ⟨h3, h4⟩ := hbc
    refine ⟨IsTrans.trans _ _ _ h1 h3, fun hca => ?_⟩
    have hcb : leMsg c.2 b.2 := IsTrans.trans _ _ _ hca h1
    have hba : leMsg b.2 a.2 := IsTrans.trans _ _ _ h3 hca
    exact Nat.le_trans (h2 hba) (h4 hcb)

/-- The sort at analyzer.py line 99 with each row decorated by its original
position. -/
def sortRowsIdx (rows : List Msg) : List (ℕ × Msg) :=
  List.insertionSort leMsgIdx rows.enum

theorem map_snd_orderedInsert (i : ℕ) (a : Msg) (s : List (ℕ × Msg))
    (hidx : ∀ p ∈ s, i < p.1) :
    (List.orderedInsert leMsgIdx (i, a) s).map Prod.snd =
      List.orderedInsert leMsg a (s.map Prod.snd) := by
  induction s with
  | nil => rfl
  | cons b t ih =>
    have hib : i < b.1 := hidx b (List.mem_cons_self b t)
    by_cases h : leMsg a b.2
    · have h' : leMsgIdx (i, a) b := ⟨h, fun _ => Nat.le_of_lt hib⟩
      simp only [List.orderedInsert, if_pos h, if_pos h', List.map_cons]
    · have h' : ¬leMsgIdx (i, a) b := fun hc => h hc.1
      simp only [List.orderedInsert, if_neg h, if_neg h', List.map_cons]
      rw [ih fun p hp => hidx p (List.mem_cons_of_mem b hp)]

theorem map_snd_insertionSort_enumFrom :
    ∀ (k : ℕ) (l : List Msg),
      (List.insertionSort leMsgIdx (l.enumFrom k)).map Prod.snd =
        List.insertionSort leMsg l
  | _, [] => rfl
  | k, a :: l => by
    simp only [List.enumFrom_cons, List.insertionSort]
    rw [map_snd_orderedInsert, map_snd_insertionSort_enumFrom (k + 1) l]
    intro p hp
    have hp' : p ∈ l.enumFrom (k + 1) := (List.mem_insertionSort leMsgIdx).mp hp
    have := List.le_fst_of_mem_enumFrom hp'
    omega

/-- C4: the thread-reconstruction sort coincides with sorting the
position-decorated rows, is ordered by the (thread_id, timestamp) key, and
on rows of the same thread with identical timestamps it keeps the original
row order (strictly increasing original positions): the sort is stable and
within-thread order is total with ties broken by input order. -/
theorem sortRows_stable_tie_break (rows : List Msg) :
    (sortRowsIdx rows).map Prod.snd = sortRows rows ∧
    (∀ p q : Fin (sortRowsIdx rows).length, p < q →
      leMsg ((sortRowsIdx rows).get p).2 ((sortRowsIdx rows).get q).2) ∧
    (∀ p q : Fin (sortRowsIdx rows).length, p < q →
      ((sortRowsIdx rows).get p).2.thread_id = ((sortRowsIdx rows).get q).2.thread_id →
      ((sortRowsIdx rows).get p).2.timestamp = ((sortRowsIdx rows).get q).2.timestamp →
      ((sortRowsIdx rows).get p).1 < ((sortRowsIdx rows).get q).1) := by
  have hsorted : List.Sorted leMsgIdx (sortRowsIdx rows) :=
    List.sorted_insertionSort leMsgIdx rows.enum
  refine ⟨map_snd_insertionSort_enumFrom 0 rows, ?_, ?_⟩
  · intro p q hpq
    exact (hsorted.rel_get_of_lt hpq).1
  · intro p q hpq htid hts
    have hrel := hsorted.rel_get_of_lt hpq
    have hback : leMsg ((sortRowsIdx rows).get q).2 ((sortRowsIdx rows).get p).2 :=
      Or.inr ⟨htid.symm, le_of_eq hts.symm⟩
    have hle : ((sortRowsIdx rows).get p).1 ≤ ((sortRowsIdx rows).get q).1 := hrel.2 hback
    have henum_nodup : rows.enum.Nodup :=
      List.Nodup.of_map Prod.fst (by rw [List.enum_map_fst]; exact List.nodup_range _)
    have hnodup : (sortRowsIdx rows).Nodup :=
      (List.perm_insertionSort leMsgIdx rows.enum).nodup_iff.mpr henum_nodup
    have hget_ne : (sortRowsIdx rows).get p ≠ (sortRowsIdx rows).get q := by
      rw [Ne, hnodup.get_inj_iff]
      exact Fin.ne_of_lt hpq
    have hfst_ne : ((sortRowsIdx rows).get p).1 ≠ ((sortRowsIdx rows).get q).1 := by
      intro he
      apply hget_ne
      have hpm : (sortRowsIdx rows).get p ∈ rows.enum :=
        (List.perm_insertionSort leMsgIdx rows.enum).subset (List.get_mem _ _ _)
      have hqm : (sortRowsIdx rows).get q ∈ rows.enum :=
        (List.perm_insertionSort leMsgIdx rows.enum).subset (List.get_mem _ _ _)
      have hps := List.snd_eq_of_mem_enumFrom hpm
      have hqs := List.snd_eq_of_mem_enumFrom hqm
      have hsnd : ((sortRowsIdx rows).get p).2 = ((sortRowsIdx rows).get q).2 := by
        rw [hps, hqs]
        congr 1
      exact Prod.ext he hsnd
    exact Nat.lt_of_le_of_ne hle hfst_ne

/-- A message in a different thread, original position 0. -/
def exT1 : Msg :=
  { thread_id := "b", sender := "x", timestamp := 0, content := some "zzz"
    direction := "inbound", contact_person := "x", sentiment_polarity := 0
    message_length := 3, word_count := 1, question_count := 0
    has_greeting := false, has_url := false
    is_outbound_initiated := false, is_first_message := false }

/-- First of two same-thread same-timestamp messages, original position 1. -/
def exT2 : Msg :=
  { thread_id := "a", sender := "me", timestamp := 5, content := some "one"
    direction := "outbound", contact_person := "y", sentiment_polarity := 0
    message_length := 3, word_count := 1, question_count := 0
    has_greeting := false, has_url := false
    is_outbound_initiated := false, is_first_message := false }

/-- Second of the tied pair, original position 2. -/
def exT3 : Msg :=
  { thread_id := "a", sender := "alice", timestamp := 5, content := some "two"
    direction := "inbound", contact_person := "alice", sentiment_polarity := 0
    message_length := 3, word_count := 1, question_count := 0
    has_greeting := false, has_url := false
    is_outbound_initiated := false, is_first_message := false }

/-- Witness for C4 on a concrete frame with a timestamp tie inside thread
"a": the tied rows keep their input order (positions 1 then 2). -/
theorem sortRows_stable_tie_break_witness :
    (sortRowsIdx [exT1, exT2, exT3]).map Prod.snd = sortRows [exT1, exT2, exT3] ∧
    ((sortRowsIdx [exT1, exT2, exT3]).get ⟨0, by decide⟩).1 <
      ((sortRowsIdx [exT1, exT2, exT3]).get ⟨1, by decide⟩).1 := by
  refine ⟨(sortRows_stable_tie_break [exT1, exT2, exT3]).1, ?_⟩
  exact (sortRows_stable_tie_break [exT1, exT2, exT3]).2.2 ⟨0, by decide⟩ ⟨1, by decide⟩
    (by decide) (by decide) (by decide)

/-! ### Outbound performance (src/outbound_analyzer.py) -/

/-- Python's substring test `needle in hay` (kernel-computable form). -/
def strContains (hay needle : String) : Bool :=
  hay.data.tails.any fun t => needle.data.isPrefixOf t

/-- Python's `str.lower` character-wise (stated on the underlying character
list so that it is kernel-computable; the message contents involved are
ASCII, where `Char.toLower` and Python agree). -/
def strLower (s : String) : String := ⟨s.data.map Char.toLower⟩

/-- `message_type` assignment of `analyze_outbound_performance` (lines
60-74): first-matching keyword rule over the lowercased content; the `'?'`
membership test is on the raw content.  Rows reaching this stage always
carry a content string (the loader drops rows with missing content); a
missing one would render as `str(nan) = "nan"`. -/
def messageTypeOf (content : Option String) : String :=
  let raw := content.getD "nan"
  let cl := strLower raw
  if ["thanks", "thank you"].any (fun w => strContains cl w) then "thank_you"
  else if ["hi ", "hello", "hey"].any (fun w => strContains cl w) then "greeting"
  else if strContains raw "?" then "question"
  else if ["follow up", "following up"].any (fun w => strContains cl w) then "follow_up"
  else if ["opportunity", "position", "role", "job"].any (fun w => strContains cl w) then
    "opportunity_inquiry"
  else if ["connect", "connection", "network"].any (fun w => strContains cl w) then
    "connection_request"
  else "other"

/-- One row of the outbound-performance frame. -/
structure OutRec where
  message_id : ℕ
  thread_id : String
  timestamp : ℚ
  contact_person : String
  content : Option String
  message_length : ℕ
  word_count : ℕ
  sentiment_polarity : ℚ
  got_response : Bool
  response_time_hours : Option ℚ
  responder : Option String
  is_conversation_starter : Bool
  message_type : String
  has_greeting : Bool
  question_count : ℕ
  has_url : Bool
  performance_score : ℚ
deriving DecidableEq

/-- The inbound messages of `m`'s thread with a strictly later timestamp
(lines 41-44, after restricting to the thread and sorting by time). -/
def outboundResponses (rows : List Msg) (m : Msg) : List Msg :=
  rows.filter fun x =>
    x.thread_id == m.thread_id && decide (m.timestamp < x.timestamp) && x.direction == "inbound"

/-- `responses.sort_values('timestamp').iloc[0]`: a row of minimal
timestamp.  The single-column sort is pandas' default (unstable) quicksort,
so among rows tied at the minimal timestamp the chosen one is unspecified;
this model takes the first minimal one in frame order. -/
def firstMinByTs (l : List Msg) : Option Msg :=
  l.foldl
    (fun acc m =>
      match acc with
      | none => some m
      | some x => if m.timestamp < x.timestamp then some m else acc)
    none

/-- The record built for one self-initiated outbound message `m` (lines
32-94), before the `performance_score` column is added.  `i` is the row's
positional id (`message_id`). -/
def mkOutRec (rows : List Msg) (i : ℕ) (m : Msg) : OutRec :=
  let responses := outboundResponses rows m
  let fr := firstMinByTs responses
  { message_id := i
    thread_id := m.thread_id
    timestamp := m.timestamp
    contact_person := m.contact_person
    content := m.content
    message_length := m.message_length
    word_count := m.word_count
    sentiment_polarity := m.sentiment_polarity
    got_response := !responses.isEmpty
    response_time_hours := fr.map fun r => (r.timestamp - m.timestamp) / 3600
    responder := fr.map fun r => r.sender
    is_conversation_starter := m.is_first_message && m.is_outbound_initiated
    message_type := messageTypeOf m.content
    has_greeting := m.has_greeting
    question_count := m.question_count
    has_url := m.has_url
    performance_score := 0 }

/-- The `performance_score` column added at lines 99-105:
`got_response*10 + (sentiment+1)*2 + has_greeting*1 + question_count*0.5 +
(word_count/50)*0.1`. -/
def addPerformanceScore (r : OutRec) : OutRec :=
  { r with
    performance_score :=
      (if r.got_response then (1 : ℚ) else 0) * 10 + (r.sentiment_polarity + 1) * 2 +
        (if r.has_greeting then (1 : ℚ) else 0) * 1 + (r.question_count : ℚ) * (1 / 2) +
        (r.word_count : ℚ) / 50 * (1 / 10) }

/-- `analyze_outbound_performance`: restrict to direction `'outbound'` in
self-initiated threads, build one record per message, then add the score
column. -/
def analyzeOutboundPerformance (rows : List Msg) : List OutRec :=
  (((rows.filter fun m => m.direction == "outbound" && m.is_outbound_initiated).enum).map
      fun p => mkOutRec rows p.1 p.2).map addPerformanceScore

/-! ### C2 — got_response, response time and responder -/

theorem firstMinByTs_go_isSome (x : Msg) :
    ∀ l : List Msg,
      (l.foldl
        (fun acc m =>
          match acc with
          | none => some m
          | some x => if m.timestamp < x.timestamp then some m else acc)
        (some x)).isSome = true := by
  intro l
  induction l generalizing x with
  | nil => rfl
  | cons a t ih =>
    simp only [List.foldl_cons]
    by_cases h : a.timestamp < x.timestamp <;> simp [h, ih]

theorem firstMinByTs_go_spec (y : Msg) :
    ∀ (l : List Msg) (x : Msg),
      l.foldl
        (fun acc m =>
          match acc with
          | none => some m
          | some x => if m.timestamp < x.timestamp then some m else acc)
        (some x) = some y →
      (y ∈ l ∨ y = x) ∧ y.timestamp ≤ x.timestamp ∧ ∀ m ∈ l, y.timestamp ≤ m.timestamp := by
  intro l
  induction l with
  | nil =>
    intro x h
    simp only [List.foldl_nil, Option.some.injEq] at h
    exact ⟨Or.inr h.symm, le_of_eq (by rw [h]), fun m hm => absurd hm (List.not_mem_nil m)⟩
  | cons a t ih =>
    intro x h
    simp only [List.foldl_cons] at h
    by_cases hc : a.timestamp < x.timestamp
    · rw [if_pos hc] at h
      obtain ⟨hmem, hle, hall⟩ := ih a h
      refine ⟨?_, ?_, ?_⟩
      · rcases hmem with hm | hm
        · exact Or.inl (List.mem_cons_of_mem a hm)
        · exact Or.inl (hm ▸ List.mem_cons_self a t)
      · exact le_trans hle (le_of_lt hc)
      · intro m hm
        rcases List.mem_cons.mp hm with rfl | hm
        · exact hle
        · exact hall m hm
    · rw [if_neg hc] at h
      obtain ⟨hmem, hle, hall⟩ := ih x h
      refine ⟨?_, hle, ?_⟩
      · rcases hmem with hm | hm
        · exact Or.inl (List.mem_cons_of_mem a hm)
        · exact Or.inr hm
      · intro m hm
        rcases List.mem_cons.mp hm with rfl | hm
        · exact le_trans hle (le_of_not_lt hc)
        · exact hall m hm

theorem firstMinByTs_spec (l : List Msg) (y : Msg) (h : firstMinByTs l = some y) :
    y ∈ l ∧ ∀ m ∈ l, y.timestamp ≤ m.timestamp := by
  cases l with
  | nil => cases h
  | cons a t =>
    unfold firstMinByTs at h
    simp only [List.foldl_cons] at h
    obtain ⟨hmem, hle, hall⟩ := firstMinByTs_go_spec y t a h
    refine ⟨?_, ?_⟩
    · rcases hmem with hm | hm
      · exact List.mem_cons_of_mem a hm
      · exact hm ▸ List.mem_cons_self a t
    · intro m hm
      rcases List.mem_cons.mp hm with rfl | hm
      · exact hle
      · exact hall m hm

theorem firstMinByTs_isSome (l : List Msg) (hl : l ≠ []) :
    (firstMinByTs l).isSome = true := by
  cases l with
  | nil => exact absurd rfl hl
  | cons a t =>
    unfold firstMinByTs
    simp only [List.foldl_cons]
    exact firstMinByTs_go_isSome a t

/-- Membership of a message in the response set unfolded to its defining
conditions. -/
theorem mem_outboundResponses (rows : List Msg) (m x : Msg) :
    x ∈ outboundResponses rows m ↔
      x ∈ rows ∧ x.thread_id = m.thread_id ∧ m.timestamp < x.timestamp ∧
        x.direction = "inbound" := by
  unfold outboundResponses
  simp only [List.mem_filter, Bool.and_eq_true, beq_iff_eq, decide_eq_true_eq]
  tauto

/-- C2: in the outbound-performance frame each record of a self-initiated
outbound message has `got_response` true iff some inbound message of the
same thread has a strictly later timestamp; when true,
`response_time_hours` is the elapsed hours to an earliest such inbound
message and `responder` is that message's sender; when false, both are
null. -/
theorem gotResponse_iff_later_inbound (rows : List Msg) (r : OutRec)
    (hr : r ∈ analyzeOutboundPerformance rows) :
    (r.got_response = true ↔
      ∃ m ∈ rows, m.thread_id = r.thread_id ∧ m.direction = "inbound" ∧
        r.timestamp < m.timestamp) ∧
    (r.got_response = true →
      ∃ m ∈ rows, m.thread_id = r.thread_id ∧ m.direction = "inbound" ∧
        r.timestamp < m.timestamp ∧
        r.response_time_hours = some ((m.timestamp - r.timestamp) / 3600) ∧
        r.responder = some m.sender ∧
        ∀ m' ∈ rows, m'.thread_id = r.thread_id → m'.direction = "inbound" →
          r.timestamp < m'.timestamp → m.timestamp ≤ m'.timestamp) ∧
    (r.got_response = false → r.response_time_hours = none ∧ r.responder = none) := by
  unfold analyzeOutboundPerformance at hr
  rw [List.mem_map] at hr
  obtain ⟨r0, hr0, rfl⟩ := hr
  rw [List.mem_map] at hr0
  obtain ⟨⟨i, m0⟩, _, rfl⟩ := hr0
  have hfields :
      (addPerformanceScore (mkOutRec rows i m0)).got_response =
          !(outboundResponses rows m0).isEmpty ∧
        (addPerformanceScore (mkOutRec rows i m0)).response_time_hours =
          (firstMinByTs (outboundResponses rows m0)).map
            (fun r => (r.timestamp - m0.timestamp) / 3600) ∧
        (addPerformanceScore (mkOutRec rows i m0)).responder =
          (firstMinByTs (outboundResponses rows m0)).map (fun r => r.sender) ∧
        (addPerformanceScore (mkOutRec rows i m0)).thread_id = m0.thread_id ∧
        (addPerformanceScore (mkOutRec rows i m0)).timestamp = m0.timestamp :=
    ⟨rfl, rfl, rfl, rfl, rfl⟩
  obtain ⟨hg, hrt, hresp, htid, hts⟩ := hfields
  rw [hg, hrt, hresp, htid, hts]
  constructor
  · rw [Bool.not_eq_eq_eq_not]
    simp only [Bool.not_true, List.isEmpty_eq_false_iff_exists_mem]
    constructor
    · rintro ⟨x, hx⟩
      obtain ⟨hxr, hxt, hxts, hxd⟩ := (mem_outboundResponses rows m0 x).mp hx
      exact ⟨x, hxr, hxt, hxd, hxts⟩
    · rintro ⟨m, hm, ht, hd, hts'⟩
      exact ⟨m, (mem_outboundResponses rows m0 m).mpr ⟨hm, ht, hts', hd⟩⟩
  constructor
  · intro hgot
    rw [Bool.not_eq_eq_eq_not, Bool.not_true, List.isEmpty_eq_false_iff_exists_mem] at hgot
    obtain ⟨x, hx⟩ := hgot
    have hne : outboundResponses rows m0 ≠ [] := List.ne_nil_of_mem hx
    obtain ⟨y, hy⟩ := Option.isSome_iff_exists.mp (firstMinByTs_isSome _ hne)
    obtain ⟨hymem, hymin⟩ := firstMinByTs_spec _ y hy
    obtain ⟨hyr, hyt, hyts, hyd⟩ := (mem_outboundResponses rows m0 y).mp hymem
    refine ⟨y, hyr, hyt, hyd, hyts, ?_, ?_, ?_⟩
    · rw [hy]; rfl
    · rw [hy]; rfl
    · intro m' hm' ht' hd' hts'
      exact hymin m' ((mem_outboundResponses rows m0 m').mpr ⟨hm', ht', hts', hd'⟩)
  · intro hgot
    rw [Bool.not_eq_eq_eq_not, Bool.not_false] at hgot
    have hnil : outboundResponses rows m0 = [] := List.isEmpty_iff.mp hgot
    rw [hnil]
    exact ⟨rfl, rfl⟩

/-! ### C6 — the performance score formula -/

/-- The claim's formula, written as the specification states it:
`10×got_response + 2×(sentiment+1) + 1×has_greeting + 0.5×question_count +
0.1×(word_count/50)`, with booleans read as 0/1. -/
def specPerformanceScore (gotResponse : Bool) (sentiment : ℚ) (hasGreeting : Bool)
    (questionCount wordCount : ℕ) : ℚ :=
  10 * (if gotResponse then 1 else 0) + 2 * (sentiment + 1) +
    1 * (if hasGreeting then 1 else 0) + (1 / 2) * questionCount +
    (1 / 10) * ((wordCount : ℚ) / 50)

/-- C6: every record of the outbound-performance frame carries
`performance_score = 10×got_response + 2×(sentiment+1) + 1×has_greeting +
0.5×question_count + 0.1×(word_count/50)`. -/
theorem performanceScore_eq_spec (rows : List Msg) (r : OutRec)
    (hr : r ∈ analyzeOutboundPerformance rows) :
    r.performance_score =
      specPerformanceScore r.got_response r.sentiment_polarity r.has_greeting
        r.question_count r.word_count := by
  unfold analyzeOutboundPerformance at hr
  rw [List.mem_map] at hr
  obtain ⟨r0, _, rfl⟩ := hr
  unfold addPerformanceScore specPerformanceScore
  ring

/-- A self-initiated outbound opener, for concrete runs of the outbound
stage. -/
def exO1 : Msg :=
  { thread_id := "t1", sender := "me", timestamp := 0, content := some "Hi Alice?"
    direction := "outbound", contact_person := "alice", sentiment_polarity := 0
    message_length := 9, word_count := 2, question_count := 1
    has_greeting := true, has_url := false
    is_outbound_initiated := true, is_first_message := true }

/-- The inbound reply two hours later. -/
def exO2 : Msg :=
  { thread_id := "t1", sender := "alice", timestamp := 7200, content := some "Hi back!"
    direction := "inbound", contact_person := "alice", sentiment_polarity := 0
    message_length := 8, word_count := 2, question_count := 0
    has_greeting := true, has_url := false
    is_outbound_initiated := true, is_first_message := false }

/-- The outbound-performance record of `exO1` in the two-message frame. -/
def exOutRec : OutRec := addPerformanceScore (mkOutRec [exO1, exO2] 0 exO1)

/-- Witness for C2 on the concrete frame: the opener got a response, with a
2.0-hour response time from "alice". -/
theorem gotResponse_iff_later_inbound_witness :
    exOutRec ∈ analyzeOutboundPerformance [exO1, exO2] ∧
    exOutRec.got_response = true ∧
    exOutRec.response_time_hours = some 2 ∧
    exOutRec.responder = some "alice" := by
  have hm : exOutRec ∈ analyzeOutboundPerformance [exO1, exO2] := by decide
  have h := gotResponse_iff_later_inbound [exO1, exO2] exOutRec hm
  exact ⟨hm, h.1.mpr ⟨exO2, by decide, by decide, by decide, by decide⟩, by decide, by decide⟩

/-- Witness for C6 on the concrete record. -/
theorem performanceScore_eq_spec_witness :
    exOutRec ∈ analyzeOutboundPerformance [exO1, exO2] ∧
    exOutRec.performance_score =
      specPerformanceScore exOutRec.got_response exOutRec.sentiment_polarity
        exOutRec.has_greeting exOutRec.question_count exOutRec.word_count := by
  have hm : exOutRec ∈ analyzeOutboundPerformance [exO1, exO2] := by decide
  exact ⟨hm, performanceScore_eq_spec [exO1, exO2] exOutRec hm⟩

/-! ### Sales classification (src/sales_analyzer.py, classify_sales_messages)

The five business-context regexes and five qualifying-question regexes of
`is_sales_message` are matched with `re.search` on the lowercased content;
`re.search` is not re-implemented here — each pattern is an opaque Boolean
oracle on the lowercased content, and every statement below is proved for
all oracles.  The plain-keyword family is matched by Python's substring
test, embedded concretely. -/

/-- The `sales_keywords` list of sales_analyzer.py lines 24-45, verbatim and
in order. -/
def salesKeywords : List String :=
  ["opportunity", "position", "role", "job", "hire", "hiring", "candidate",
   "application", "applied", "resume", "cv", "interview",
   "business", "company", "client", "customer", "service", "services",
   "consulting", "consultant", "help", "assist", "solution",
   "revenue", "growth", "arr", "saas", "sales", "marketing",
   "partner", "partnership", "collaborate", "collaboration", "work together",
   "project", "freelance", "contract", "contractor",
   "meeting", "call", "demo", "presentation", "discuss", "chat",
   "schedule", "available", "time", "calendar",
   "experience", "expertise", "skills", "background", "portfolio",
   "results", "success", "achieve", "deliver", "provide"]

/-- `is_sales_message` (lines 17-75): 1 point per keyword present in the
lowercased content, 2 per matching business-context pattern, 1.5 per
matching qualifying-question pattern; sales iff the total reaches 2.
Missing (`NaN`) content is never sales. -/
def isSalesMessage (bizPatterns qPatterns : List (String → Bool)) (content : Option String) :
    Bool :=
  match content with
  | none => false
  | some c =>
    let cl := strLower c
    let salesScore : ℚ := (salesKeywords.filter fun k => strContains cl k).length
    let patternMatches : ℚ := (bizPatterns.filter fun p => p cl).length
    let questionMatches : ℚ := (qPatterns.filter fun p => p cl).length
    decide (2 ≤ salesScore + patternMatches * 2 + questionMatches * (3 / 2))

/-- `get_sales_type` (lines 81-96): first-matching keyword rule on the
lowercased content. -/
def getSalesType (content : Option String) : String :=
  match content with
  | none => "other"
  | some c =>
    let cl := strLower c
    if ["job", "position", "role", "hire", "candidate", "application"].any
        (fun w => strContains cl w) then "job_seeking"
    else if ["service", "help", "consulting", "solution", "provide"].any
        (fun w => strContains cl w) then "service_offering"
    else if ["partner", "collaboration", "work together", "project"].any
        (fun w => strContains cl w) then "partnership"
    else if ["meeting", "call", "demo", "schedule", "available"].any
        (fun w => strContains cl w) then "meeting_request"
    else "business_general"

/-- A message row with the two columns added by `classify_sales_messages`. -/
structure SMsg where
  msg : Msg
  is_sales_message : Bool
  sales_type : String
deriving DecidableEq

/-- `classify_sales_messages`: add `is_sales_message` per content, and
`sales_type` via `get_sales_type` for sales rows, `'non_sales'` otherwise. -/
def classifySalesMessages (bizPatterns qPatterns : List (String → Bool)) (rows : List Msg) :
    List SMsg :=
  rows.map fun m =>
    let s := isSalesMessage bizPatterns qPatterns m.content
    { msg := m
      is_sales_message := s
      sales_type := if s then getSalesType m.content else "non_sales" }

/-! ### C7 — the weighted sales score threshold -/

/-- The claim's weighted score, written as the specification states it: 1
point per distinct sales-keyword hit, plus 2 points per matching
business-context pattern, plus 1.5 points per matching qualifying-question
pattern, all on the lowercased content. -/
def specSalesScore (bizPatterns qPatterns : List (String → Bool)) (c : String) : ℚ :=
  ((salesKeywords.filter fun k => strContains (strLower c) k).length : ℚ) +
    2 * ((bizPatterns.filter fun p => p (strLower c)).length : ℚ) +
    (3 / 2) * ((qPatterns.filter fun p => p (strLower c)).length : ℚ)

/-- C7: after classification, a row is marked sales iff its content is
present and the weighted score reaches 2; rows with missing content are
never sales.  Holds for every interpretation of the regex patterns. -/
theorem isSales_iff_score_ge_two (bizPatterns qPatterns : List (String → Bool))
    (rows : List Msg) (s : SMsg)
    (hs : s ∈ classifySalesMessages bizPatterns qPatterns rows) :
    (s.is_sales_message = true ↔
      ∃ c, s.msg.content = some c ∧ 2 ≤ specSalesScore bizPatterns qPatterns c) ∧
    (s.msg.content = none → s.is_sales_message = false) := by
  unfold classifySalesMessages at hs
  rw [List.mem_map] at hs
  obtain ⟨m, _, rfl⟩ := hs
  constructor
  · simp only []
    cases hc : m.content with
    | none =>
      simp [isSalesMessage, hc]
    | some c =>
      simp only [isSalesMessage, hc, decide_eq_true_eq]
      constructor
      · intro h
        refine ⟨c, rfl, ?_⟩
        unfold specSalesScore
        calc (2 : ℚ) ≤ _ := h
        _ = _ := by ring
      · rintro ⟨c', hc', h⟩
        obtain rfl : c = c' := by injection hc'
        unfold specSalesScore at h
        calc (2 : ℚ) ≤ _ := h
        _ = _ := by ring
  · intro hnone
    have hnone' : m.content = none := hnone
    simp [isSalesMessage, hnone']

/-- A content that scores exactly 2 from two keyword hits. -/
def exSalesMsg : Msg :=
  { thread_id := "t1", sender := "me", timestamp := 0, content := some "Job opportunity"
    direction := "outbound", contact_person := "alice", sentiment_polarity := 0
    message_length := 15, word_count := 2, question_count := 0
    has_greeting := false, has_url := false
    is_outbound_initiated := true, is_first_message := true }

/-- The classified row of `exSalesMsg` with no regex oracles. -/
def exSalesRow : SMsg :=
  { msg := exSalesMsg
    is_sales_message := isSalesMessage [] [] exSalesMsg.content
    sales_type :=
      if isSalesMessage [] [] exSalesMsg.content then getSalesType exSalesMsg.content
      else "non_sales" }

/-- Witness for C7: "Job opportunity" hits the keywords `job` and
`opportunity`, scoring 2, so it is classified as sales. -/
theorem isSales_iff_score_ge_two_witness :
    exSalesRow ∈ classifySalesMessages [] [] [exSalesMsg] ∧
    exSalesRow.is_sales_message = true := by
  have hm : exSalesRow ∈ classifySalesMessages [] [] [exSalesMsg] := by decide
  have h := isSales_iff_score_ge_two [] [] [exSalesMsg] exSalesRow hm
  refine ⟨hm, h.1.mpr ⟨"Job opportunity", by decide, by decide⟩⟩

/-! ### Text similarity (difflib.SequenceMatcher, used at sales_analyzer.py
line 290)

`find_similar_sales_patterns` scores similarity with
`SequenceMatcher(None, a, b).ratio()`: the total size `M` of the matching
blocks (greedy longest-match recursion) scaled as `2M/(len(a)+len(b))`.
The embedding below reproduces difflib's algorithm with an empty junk set —
exact for `SequenceMatcher(None, ..)` whenever `len(b) < 200`, below the
autojunk threshold (with no junk the four junk-extension loops of
`find_longest_match` cannot fire: the inner dynamic program already returns
a maximal run).  The `j2len` dictionary is a total function defaulting to
0, matching `j2len.get(j-1, 0)`. -/

/-- The best match found so far: start in `a`, start in `b`, length. -/
structure MatchInfo where
  besti : ℕ
  bestj : ℕ
  bestsize : ℕ
deriving DecidableEq

/-- The ascending positions of character `c` in `b` (`b2j[c]`). -/
def charPositions (b : List Char) (c : Char) : List ℕ :=
  (b.enum.filter fun p => p.2 == c).map Prod.fst

/-- The run length `k = j2len.get(j-1, 0) + 1` ending at column `j` (a
Python dict has no key `-1`, hence the `j = 0` guard). -/
def rowK (j2len : ℕ → ℕ) (j : ℕ) : ℕ :=
  if j = 0 then 1 else j2len (j - 1) + 1

/-- One iteration of the inner `for j in b2j[a[i]]` loop: record the run
length in the new table and update the best match on strict improvement
(`if k > bestsize: besti, bestj, bestsize = i-k+1, j-k+1, k`). -/
def flmStep (i : ℕ) (j2len : ℕ → ℕ) (acc : (ℕ → ℕ) × MatchInfo) (j : ℕ) :
    (ℕ → ℕ) × MatchInfo :=
  let k := rowK j2len j
  ((fun j' => if j' = j then k else acc.1 j'),
    if acc.2.bestsize < k then ⟨i + 1 - k, j + 1 - k, k⟩ else acc.2)

/-- One row `i` of the dynamic program: fold the inner loop over the
ascending positions of `a[i]` in `b`, starting from the empty new table
(`newj2len = {}`); `k` always reads the previous row's table. -/
def flmRow (i : ℕ) (j2len : ℕ → ℕ) (js : List ℕ) (st : MatchInfo) :
    (ℕ → ℕ) × MatchInfo :=
  js.foldl (flmStep i j2len) ((fun _ => 0), st)

/-- The outer `for i in range(alo, ahi)` loop of `find_longest_match`. -/
def flmGo (b : List Char) : List Char → ℕ → (ℕ → ℕ) → MatchInfo → MatchInfo
  | [], _, _, st => st
  | c :: rest, i, j2len, st =>
    let p := flmRow i j2len (charPositions b c) st
    flmGo b rest (i + 1) p.1 p.2

/-- `find_longest_match` over the full ranges with an empty junk set.  (The
recursion of `get_matching_blocks` is realised by slicing the strings, which
shifts window-relative positions to 0 without changing the result.) -/
def findLongestMatch (a b : List Char) : MatchInfo :=
  flmGo b a 0 (fun _ => 0) ⟨0, 0, 0⟩

/-- The total matched size underlying `ratio`: the size of the best match
plus, recursively, the totals of the regions left and right of it — the sum
of the `get_matching_blocks` sizes.  Each recursive call strictly shrinks
`len(a) + len(b)`, so fuel `len(a) + len(b)` never runs out. -/
def matchSumGo : ℕ → List Char → List Char → ℕ
  | 0, _, _ => 0
  | fuel + 1, a, b =>
    let st := findLongestMatch a b
    if st.bestsize = 0 then 0
    else
      matchSumGo fuel (a.take st.besti) (b.take st.bestj) + st.bestsize +
        matchSumGo fuel (a.drop (st.besti + st.bestsize)) (b.drop (st.bestj + st.bestsize))

def matchSum (a b : List Char) : ℕ := matchSumGo (a.length + b.length) a b

/-- `SequenceMatcher(None, a, b).ratio()`: `2M/T` where `T` is the total
length, and 1.0 when both strings are empty (`_calculate_ratio`). -/
def similarity (a b : String) : ℚ :=
  if a.data.length + b.data.length = 0 then 1
  else 2 * (matchSum a.data b.data : ℚ) / ((a.data.length : ℚ) + (b.data.length : ℚ))

/-- C9 counterexample: the similarity measure is not symmetric.  On the
(lowercased, trimmed) contents "zaabb" and "bbz.aa" the greedy matcher finds
blocks "aa"+"z" (M = 3) in one direction but only "bb" (M = 2) in the
other: 6/11 against 4/11, so sim(a,b) = sim(b,a) fails at this pair. -/
theorem similarity_not_symmetric :
    similarity "zaabb" "bbz.aa" = 6 / 11 ∧ similarity "bbz.aa" "zaabb" = 4 / 11 ∧
    similarity "zaabb" "bbz.aa" ≠ similarity "bbz.aa" "zaabb" := by
  refine ⟨by decide, by decide, by decide⟩

/-! ### C9 (amended) — reflexivity of the similarity measure -/

theorem mem_charPositions (b : List Char) (c : Char) (j : ℕ) :
    j ∈ charPositions b c ↔ b[j]? = some c := by
  unfold charPositions
  simp only [List.mem_map, List.mem_filter, beq_iff_eq]
  constructor
  · rintro ⟨⟨j', ch⟩, ⟨hmem, rfl⟩, rfl⟩
    exact List.mk_mem_enum_iff_getElem?.mp hmem
  · intro h
    exact ⟨(j, c), ⟨List.mk_mem_enum_iff_getElem?.mpr h, rfl⟩, rfl⟩

theorem charPositions_sorted (b : List Char) (c : Char) :
    (charPositions b c).Pairwise (· < ·) := by
  unfold charPositions
  rw [List.pairwise_map]
  apply List.Pairwise.filter
  have h2 : (b.enum.map Prod.fst).Pairwise (· < ·) := by
    rw [List.enum_map_fst]
    exact List.pairwise_lt_range _
  rwa [List.pairwise_map] at h2

theorem flmRow_fold_no_update (i : ℕ) (t : ℕ → ℕ) :
    ∀ (js : List ℕ) (tab : ℕ → ℕ) (st : MatchInfo),
      (∀ j ∈ js, rowK t j ≤ st.bestsize) →
      (js.foldl (flmStep i t) (tab, st)).2 = st ∧
        ∀ j', (js.foldl (flmStep i t) (tab, st)).1 j' = tab j' ∨
          (j' ∈ js ∧ (js.foldl (flmStep i t) (tab, st)).1 j' = rowK t j') := by
  intro js
  induction js with
  | nil => exact fun tab st _ => ⟨rfl, fun j' => Or.inl rfl⟩
  | cons j js ih =>
    intro tab st h
    have hj : rowK t j ≤ st.bestsize := h j (List.mem_cons_self j js)
    have hstep : flmStep i t (tab, st) j =
        ((fun j' => if j' = j then rowK t j else tab j'), st) := by
      unfold flmStep
      exact Prod.ext rfl (if_neg (not_lt.mpr hj))
    rw [List.foldl_cons, hstep]
    obtain ⟨h1, h2⟩ := ih _ st fun j' hj' => h j' (List.mem_cons_of_mem j hj')
    refine ⟨h1, fun j' => ?_⟩
    rcases h2 j' with hcase | ⟨hmem, hval⟩
    · by_cases he : j' = j
      · subst he
        right
        refine ⟨List.mem_cons_self _ _, ?_⟩
        rw [hcase]
        simp
      · left
        rw [hcase]
        simp [he]
    · right
      exact ⟨List.mem_cons_of_mem j hmem, hval⟩

theorem flmRow_refl_spec (i : ℕ) (t : ℕ → ℕ) (js : List ℕ)
    (hsort : js.Pairwise (· < ·)) (hmem : i ∈ js)
    (ht1 : ∀ j, t j ≤ min (j + 1) i) (ht2 : 0 < i → t (i - 1) = i) :
    (flmRow i t js ⟨0, 0, i⟩).2 = ⟨0, 0, i + 1⟩ ∧
      (flmRow i t js ⟨0, 0, i⟩).1 i = i + 1 ∧
      ∀ j, (flmRow i t js ⟨0, 0, i⟩).1 j ≤ min (j + 1) (i + 1) := by
  have hk : ∀ j, rowK t j ≤ min (j + 1) (i + 1) := by
    intro j
    unfold rowK
    by_cases hj : j = 0
    · subst hj
      simp
    · rw [if_neg hj]
      have h1 := le_min_iff.mp (ht1 (j - 1))
      refine le_min_iff.mpr ⟨?_, ?_⟩ <;> omega
  have hki : rowK t i = i + 1 := by
    unfold rowK
    by_cases hi : i = 0
    · subst hi; rfl
    · rw [if_neg hi]
      rw [ht2 (Nat.pos_of_ne_zero hi)]
  obtain ⟨pre, post, rfl⟩ := List.append_of_mem hmem
  rw [List.pairwise_append] at hsort
  obtain ⟨hpre, hcons, hcross⟩ := hsort
  have hpre_lt : ∀ j ∈ pre, j < i := fun j hj =>
    hcross j hj i (List.mem_cons_self i post)
  have hpost_gt : ∀ j ∈ post, i < j := fun j hj =>
    (List.pairwise_cons.mp hcons).1 j hj
  unfold flmRow
  rw [List.foldl_append, List.foldl_cons]
  -- phase 1: positions before the diagonal never beat the running best
  obtain ⟨hst1, htab1⟩ := flmRow_fold_no_update i t pre (fun _ => 0) ⟨0, 0, i⟩
    (fun j hj => by
      have := le_min_iff.mp (hk j)
      have := hpre_lt j hj
      show rowK t j ≤ i
      omega)
  set p1 := pre.foldl (flmStep i t) ((fun _ => 0), ⟨0, 0, i⟩) with hp1
  have htab1_le : ∀ j, p1.1 j ≤ min (j + 1) (i + 1) := by
    intro j
    rcases htab1 j with hc | ⟨_, hc⟩
    · rw [hc]
      exact Nat.zero_le _
    · rw [hc]
      exact hk j
  -- phase 2: the diagonal position strictly improves the best to i+1
  have hstep2 : flmStep i t p1 i =
      ((fun j' => if j' = i then i + 1 else p1.1 j'), ⟨0, 0, i + 1⟩) := by
    unfold flmStep
    rw [hki]
    have hlt : p1.2.bestsize < i + 1 := by
      rw [hst1]
      exact Nat.lt_succ_self i
    refine Prod.ext ?_ ?_
    · simp
    · show (if p1.2.bestsize < i + 1 then (⟨i + 1 - (i + 1), i + 1 - (i + 1), i + 1⟩ : MatchInfo)
          else p1.2) = ⟨0, 0, i + 1⟩
      rw [if_pos hlt]
      simp
  rw [show (flmStep i t (p1.1, p1.2) i) = flmStep i t p1 i from rfl, hstep2]
  -- phase 3: positions after the diagonal cannot beat i+1
  obtain ⟨hst3, htab3⟩ := flmRow_fold_no_update i t post
    (fun j' => if j' = i then i + 1 else p1.1 j') ⟨0, 0, i + 1⟩
    (fun j hj => by
      have := le_min_iff.mp (hk j)
      show rowK t j ≤ i + 1
      omega)
  refine ⟨hst3, ?_, ?_⟩
  · rcases htab3 i with hc | ⟨hmem', _⟩
    · rw [hc]
      simp
    · exact absurd (hpost_gt i hmem') (lt_irrefl i)
  · intro j
    rcases htab3 j with hc | ⟨_, hc⟩
    · rw [hc]
      by_cases he : j = i
      · subst he
        simp
      · rw [if_neg he]
        exact htab1_le j
    · rw [hc]
      exact hk j

theorem flmGo_refl (a : List Char) :
    ∀ (rest : List Char) (i : ℕ) (t : ℕ → ℕ),
      a.drop i = rest → i ≤ a.length →
      (∀ j, t j ≤ min (j + 1) i) → (0 < i → t (i - 1) = i) →
      flmGo a rest i t ⟨0, 0, i⟩ = ⟨0, 0, a.length⟩ := by
  intro rest
  induction rest with
  | nil =>
    intro i t hdrop hle _ _
    have : a.length ≤ i := by
      by_contra hlt
      have := List.drop_eq_nil_iff.mp hdrop
      omega
    have hi : i = a.length := le_antisymm hle this
    subst hi
    rfl
  | cons c rest' ih =>
    intro i t hdrop hle h1 h2
    have hi_lt : i < a.length := by
      by_contra hge
      have : a.drop i = [] := List.drop_eq_nil_iff.mpr (by omega)
      rw [this] at hdrop
      cases hdrop
    have hc : a[i]? = some c := by
      have := congrArg List.head? hdrop
      rwa [List.head?_drop] at this
    have hmemi : i ∈ charPositions a c := (mem_charPositions a c i).mpr hc
    obtain ⟨hst, htabi, htable⟩ :=
      flmRow_refl_spec i t (charPositions a c) (charPositions_sorted a c) hmemi h1 h2
    show flmGo a (c :: rest') i t ⟨0, 0, i⟩ = ⟨0, 0, a.length⟩
    rw [flmGo, hst]
    refine ih (i + 1) (flmRow i t (charPositions a c) ⟨0, 0, i⟩).1 ?_ hi_lt htable ?_
    · have h3 : List.drop 1 (List.drop i a) = List.drop (i + 1) a := List.drop_drop 1 i a
      rw [hdrop] at h3
      simp only [List.drop_one, List.tail_cons] at h3
      exact h3.symm
    · intro _
      simpa using htabi

theorem findLongestMatch_refl (a : List Char) :
    findLongestMatch a a = ⟨0, 0, a.length⟩ := by
  unfold findLongestMatch
  refine flmGo_refl a a 0 (fun _ => 0) rfl (Nat.zero_le _) (fun j => ?_) (fun h => absurd h ?_)
  · exact Nat.zero_le _
  · omega

theorem matchSumGo_nil (f : ℕ) : matchSumGo f [] [] = 0 := by
  cases f <;> rfl

theorem matchSum_self (a : List Char) : matchSum a a = a.length := by
  unfold matchSum
  cases a with
  | nil => rfl
  | cons c rest =>
    have hfuel : (c :: rest).length + (c :: rest).length = rest.length + rest.length + 1 + 1 := by
      simp
      omega
    rw [hfuel]
    rw [matchSumGo, findLongestMatch_refl]
    simp [matchSumGo_nil]

/-- C9 (amended): the similarity measure used by pattern clustering is
reflexive — sim(a, a) = 1.0 for every string — but it is not symmetric (see
the counterexample): difflib's greedy matcher can recover different total
match sizes in the two directions. -/
theorem similarity_self (s : String) : similarity s s = 1 := by
  unfold similarity
  by_cases h : s.data.length + s.data.length = 0
  · rw [if_pos h]
  · rw [if_neg h, matchSum_self]
    have hn : ((s.data.length : ℚ)) ≠ 0 := by
      have h0 : 0 < s.data.length := by omega
      have : (0 : ℚ) < (s.data.length : ℚ) := by exact_mod_cast h0
      exact ne_of_gt this
    rw [show ((s.data.length : ℚ) + (s.data.length : ℚ)) = 2 * (s.data.length : ℚ) by ring]
    exact div_self (mul_ne_zero two_ne_zero hn)

/-! ### Pattern clustering (src/sales_analyzer.py, find_similar_sales_patterns) -/

/-- Python's `str.strip` on ASCII whitespace (stated on the character
list so that it is kernel-computable). -/
def strStrip (s : String) : String :=
  ⟨((s.data.dropWhile Char.isWhitespace).reverse.dropWhile Char.isWhitespace).reverse⟩

/-- `str(content).lower().strip()` as applied to each side of the
similarity comparison (line 278/287); a missing content renders as
`str(nan) = "nan"`. -/
def normContent (c : Option String) : String := strStrip (strLower (c.getD "nan"))

/-- One successful sales message as the clusterer sees it: the
outbound-performance row merged with the sales columns and filtered to
`is_sales_message = True` and `got_response = True`. -/
structure SalesMsg where
  content : Option String
  response_time_hours : Option ℚ
  sentiment_polarity : ℚ
  message_length : ℕ
  sales_type : String
  contact_person : String
deriving DecidableEq

/-- The greedy single-pass grouping (lines 271-294): each unprocessed
message seeds a group and absorbs every later unprocessed message whose
normalized content is similar to the seed's at or above the threshold.
Returned as (seed, absorbed later members).  The fuel argument (one unit
per seed) only serves structural recursion; each step consumes at least the
seed, so fuel `length` is never exhausted. -/
def buildGroupsGo (θ : ℚ) : ℕ → List SalesMsg → List (SalesMsg × List SalesMsg)
  | 0, _ => []
  | _, [] => []
  | fuel + 1, m :: rest =>
    let cur := normContent m.content
    (m, rest.filter fun m2 => decide (θ ≤ similarity cur (normContent m2.content))) ::
      buildGroupsGo θ fuel
        (rest.filter fun m2 => !decide (θ ≤ similarity cur (normContent m2.content)))

/-- Mean of a rational list, `np.mean`; only applied to nonempty lists
except for `avg_response_time`, which the source guards with
`if response_times else 0`. -/
def qMean (l : List ℚ) : ℚ := if l = [] then 0 else l.sum / l.length

/-- The aggregate record built for a retained group (lines 298-311). -/
structure GroupData where
  pattern_preview : String
  message_count : ℕ
  response_rate : ℚ
  avg_response_time : ℚ
  avg_sentiment : ℚ
  avg_length : ℚ
  sales_types : List String
  contacts : List String
  example_messages : List (Option String)
deriving DecidableEq

def makeGroupData (seed : SalesMsg) (absorbed : List SalesMsg) : GroupData :=
  let members := seed :: absorbed
  let cur := normContent seed.content
  let response_times := members.filterMap fun m => m.response_time_hours
  { pattern_preview :=
      if 100 < cur.data.length then String.mk (cur.data.take 100) ++ "..." else cur
    message_count := members.length
    response_rate := 1
    avg_response_time := qMean response_times
    avg_sentiment := (members.map fun m => m.sentiment_polarity).sum / members.length
    avg_length := (members.map fun m => (m.message_length : ℚ)).sum / members.length
    sales_types := members.map fun m => m.sales_type
    contacts := members.map fun m => m.contact_person
    example_messages := (members.take 3).map fun m => m.content }

/-- The final sort (lines 315-316):
`message_groups.sort(key=lambda x: (x['message_count'],
-x['avg_response_time']), reverse=True)`.  Python's sort is stable and
`reverse=True` keeps equal keys in build order, so the result is the stable
sort by "key of `g` is lexicographically ≥ key of `h`". -/
def groupKeyGE (g h : GroupData) : Prop :=
  h.message_count < g.message_count ∨
    (h.message_count = g.message_count ∧ -h.avg_response_time ≤ -g.avg_response_time)

instance : DecidableRel groupKeyGE := fun g h => by unfold groupKeyGE; infer_instance

instance : IsTotal GroupData groupKeyGE where
  total g h := by
    unfold groupKeyGE
    rcases lt_trichotomy g.message_count h.message_count with hc | hc | hc
    · exact Or.inr (Or.inl hc)
    · rcases le_total (-h.avg_response_time) (-g.avg_response_time) with ht | ht
      · exact Or.inl (Or.inr ⟨hc.symm, ht⟩)
      · exact Or.inr (Or.inr ⟨hc, ht⟩)
    · exact Or.inl (Or.inl hc)

instance : IsTrans GroupData groupKeyGE where
  trans g h k hgh hhk := by
    unfold groupKeyGE at *
    rcases hgh with h1 | ⟨e1, t1⟩
    · rcases hhk with h2 | ⟨e2, _⟩
      · exact Or.inl (h2.trans h1)
      · exact Or.inl (e2 ▸ h1)
    · rcases hhk with h2 | ⟨e2, t2⟩
      · exact Or.inl (e1 ▸ h2)
      · exact Or.inr ⟨e2.trans e1, t2.trans t1⟩

/-- `find_similar_sales_patterns`: group, keep groups of at least two
members, aggregate, and sort. -/
def findSimilarSalesPatterns (θ : ℚ) (msgs : List SalesMsg) : List GroupData :=
  List.insertionSort groupKeyGE
    (((buildGroupsGo θ msgs.length msgs).filter fun g => 2 ≤ (g.1 :: g.2).length).map
      fun g => makeGroupData g.1 g.2)

/-! ### C8 — the reporting order of the pattern groups -/

/-- Seed of the slow pair: identical contents "aaaa", response time 5h. -/
def exP1 : SalesMsg :=
  { content := some "aaaa", response_time_hours := some 5, sentiment_polarity := 0
    message_length := 4, sales_type := "business_general", contact_person := "a" }

/-- Second member of the slow pair. -/
def exP2 : SalesMsg :=
  { content := some "aaaa", response_time_hours := some 5, sentiment_polarity := 0
    message_length := 4, sales_type := "business_general", contact_person := "b" }

/-- Seed of the fast pair: identical contents "bbbb", response time 1h. -/
def exP3 : SalesMsg :=
  { content := some "bbbb", response_time_hours := some 1, sentiment_polarity := 0
    message_length := 4, sales_type := "business_general", contact_person := "c" }

/-- Second member of the fast pair. -/
def exP4 : SalesMsg :=
  { content := some "bbbb", response_time_hours := some 1, sentiment_polarity := 0
    message_length := 4, sales_type := "business_general", contact_person := "d" }

/-- C8 counterexample: on two equal-sized groups with average response
times 5h (built first) and 1h, the returned list puts the FASTER group
first — `[1, 5]` — so the tie between equal-sized groups is broken by
average response time ascending, not descending as the claim states. -/
theorem patternSort_tie_not_descending :
    ((findSimilarSalesPatterns (6 / 10) [exP1, exP2, exP3, exP4]).map
        fun g => g.avg_response_time) = [1, 5] ∧
    ¬ (findSimilarSalesPatterns (6 / 10) [exP1, exP2, exP3, exP4]).Pairwise
        (fun g h =>
          h.message_count < g.message_count ∨
            (g.message_count = h.message_count ∧
              h.avg_response_time ≤ g.avg_response_time)) := by
  constructor
  · decide
  · decide

/-- C8 (amended): the pattern-group list is sorted by member count
descending, with ties between equal-sized groups broken by average
response time ASCENDING (faster-responding groups first) — the sort key is
`(message_count, -avg_response_time)` under `reverse=True`. -/
theorem patternSort_count_desc_time_asc (θ : ℚ) (msgs : List SalesMsg) :
    (findSimilarSalesPatterns θ msgs).Pairwise fun g h =>
      h.message_count < g.message_count ∨
        (g.message_count = h.message_count ∧
          g.avg_response_time ≤ h.avg_response_time) := by
  unfold findSimilarSalesPatterns
  refine (List.sorted_insertionSort groupKeyGE _).imp ?_
  intro g h hk
  rcases hk with hlt | ⟨heq, hle⟩
  · exact Or.inl hlt
  · exact Or.inr ⟨heq.symm, neg_le_neg_iff.mp hle⟩

end LinkedInMsgs
